import Mathlib

/-!
Verification of the DataTable and InputField components.

The DataTable component (`src/unnamed/part_000`) manages a sort
configuration, a selection key set, and derives a sorted view of its
`data` prop; the InputField component
(`src/src/components/InputField/InputField.tsx`) manages a text value in
controlled or uncontrolled mode.  This file embeds those state
transitions and derived views as executable Lean functions and proves
the specified properties about them.
-/

namespace UzenceSpec

/-- A JavaScript field value as the components observe it: `vnull`
stands for both `null` and `undefined` (the code only ever tests them
with `== null` / `?? `, which identifies the two), `vnum` a number
restricted to integers, `vstr` a string. -/
inductive Value where
  | vnull : Value
  | vnum (n : Int) : Value
  | vstr (s : String) : Value
deriving DecidableEq, Repr

/-- A row is a record: an association list from field names to values.
Looking up a missing field yields `undefined`, i.e. `vnull`. -/
abbrev Row := List (String × Value)

/-- `row[key]` in JavaScript: the value of the field, `undefined`
(collapsed into `vnull`) when the field is absent. -/
def getField (r : Row) (k : String) : Value :=
  match r.find? (fun p => p.1 == k) with
  | some p => p.2
  | none => Value.vnull

/-- Sort direction, `'asc' | 'desc'` in the source. -/
inductive Direction where
  | asc : Direction
  | desc : Direction
deriving DecidableEq, Repr

/-- The table's sort configuration `{ key, direction }`; the React state
is `sortConfig : ... | null`, modelled as `Option SortConfig`. -/
structure SortConfig where
  key : String
  direction : Direction
deriving DecidableEq, Repr

/-- `String(v)` in JavaScript, for the values the comparator can pass
to it. -/
def jsToString : Value → String
  | Value.vnull => "null"
  | Value.vnum n => toString n
  | Value.vstr s => s

/-- Model of `String.prototype.localeCompare`.  The host's comparison
is locale-aware; we model it abstractly by Lean's lexicographic string
order.  Both the source comparator and the specification comparator use
this same model, so their comparison does not depend on its details. -/
def localeCompare (a b : String) : Int :=
  if a < b then -1 else if b < a then 1 else 0

/-- The comparator of `sortedData` in the source, transcribed
branch-for-branch:

    if (aVal == null && bVal == null) return 0;
    if (aVal == null) return direction === 'asc' ? -1 : 1;
    if (bVal == null) return direction === 'asc' ? 1 : -1;
    if (typeof aVal === 'number' && typeof bVal === 'number')
      return direction === 'asc' ? aVal - bVal : bVal - aVal;
    return direction === 'asc'
      ? String(aVal).localeCompare(String(bVal))
      : String(bVal).localeCompare(String(aVal));
-/
def compareVals (direction : Direction) (a b : Value) : Int :=
  if a = Value.vnull ∧ b = Value.vnull then 0
  else if a = Value.vnull then (if direction = Direction.asc then -1 else 1)
  else if b = Value.vnull then (if direction = Direction.asc then 1 else -1)
  else
    match a, b with
    | Value.vnum x, Value.vnum y =>
        if direction = Direction.asc then x - y else y - x
    | _, _ =>
        if direction = Direction.asc then localeCompare (jsToString a) (jsToString b)
        else localeCompare (jsToString b) (jsToString a)

/-- The row comparator `(a, b) => ...` the source passes to
`[...data].sort`: it compares the sort column's field values. -/
def rowCompare (cfg : SortConfig) (a b : Row) : Int :=
  compareVals cfg.direction (getField a cfg.key) (getField b cfg.key)

/-- Insert `x` into `l` before the first element that compares
strictly greater, i.e. after every element `y` with `cmp x y ≥ 0`.
Equal elements already present therefore stay in front of `x`. -/
def insertR {α : Type} (cmp : α → α → Int) (x : α) : List α → List α
  | [] => [x]
  | y :: ys => if cmp x y < 0 then x :: y :: ys else y :: insertR cmp x ys

/-- Stable comparator sort: the model of `Array.prototype.sort`, which
ECMAScript requires to be stable.  Elements are inserted left to right,
each going after all elements it compares equal to, so the original
relative order of equal elements is preserved. -/
def stableSort {α : Type} (cmp : α → α → Int) (l : List α) : List α :=
  l.foldl (fun acc x => insertR cmp x acc) []

/-- `sortedData` of the source: the data itself when no sort is
active, otherwise the stable sort of a copy of the data under the row
comparator. -/
def sortedData (data : List Row) (sortConfig : Option SortConfig) : List Row :=
  match sortConfig with
  | none => data
  | some cfg => stableSort (rowCompare cfg) data

example :
    sortedData [[("age", Value.vnum 3)], [("age", Value.vnum 1)], [("age", Value.vnum 2)]]
      (some ⟨"age", Direction.asc⟩)
    = [[("age", Value.vnum 1)], [("age", Value.vnum 2)], [("age", Value.vnum 3)]] := by
  decide

/-- The specification's comparator, transcribed from §4.2 of the spec:
numeric fields compare numerically; all other field types compare via
their (locale-aware) string ordering; `null`/`undefined` values sort
earlier in ascending order and later in descending order; two
`null`/`undefined` operands compare equal.  To be compared with
`compareVals`, which is transcribed from the source. -/
def specCompareVals (direction : Direction) (a b : Value) : Int :=
  match a, b with
  | Value.vnull, Value.vnull => 0
  | Value.vnull, _ => if direction = Direction.asc then -1 else 1
  | _, Value.vnull => if direction = Direction.asc then 1 else -1
  | Value.vnum x, Value.vnum y =>
      if direction = Direction.asc then
        (if x < y then -1 else if y < x then 1 else 0)
      else
        (if y < x then -1 else if x < y then 1 else 0)
  | _, _ =>
      if direction = Direction.asc then localeCompare (jsToString a) (jsToString b)
      else localeCompare (jsToString b) (jsToString a)

/-- The specification's row comparator on the active sort column. -/
def specRowCompare (cfg : SortConfig) (a b : Row) : Int :=
  specCompareVals cfg.direction (getField a cfg.key) (getField b cfg.key)

/-- A sort-change notification: the `(key, direction | null)` pair
passed to `onSort`. -/
structure SortEvent where
  key : String
  direction : Option Direction
deriving DecidableEq, Repr

/-- `toggleSort` of the source: given the current sort configuration,
the clicked column's key and its `sortable` flag, returns the new sort
configuration together with the list of sort-change notifications
fired during the call (empty for a non-sortable column, otherwise the
single `onSort` call's arguments). -/
def toggleSort (sortConfig : Option SortConfig) (key : String) (sortable : Bool) :
    Option SortConfig × List SortEvent :=
  if sortable = false then (sortConfig, [])
  else
    let next : Option SortConfig :=
      match sortConfig with
      | some cfg =>
          if cfg.key = key then
            (if cfg.direction = Direction.asc then some ⟨key, Direction.desc⟩ else none)
          else some ⟨key, Direction.asc⟩
      | none => some ⟨key, Direction.asc⟩
    (next,
      [⟨(match next with | some n => n.key | none => key),
        (match next with | some n => some n.direction | none => none)⟩])

/-- Selection mode `'single' | 'multiple'`. -/
inductive SelectMode where
  | single : SelectMode
  | multiple : SelectMode
deriving DecidableEq, Repr

/-- `updateSelection` of the source, in uncontrolled mode
(`selectedRowKeys === undefined`): the internal selected keys become
exactly the passed keys, and `onRowSelect` is notified with the rows of
`data` whose identity-key value is among the passed keys, filtered in
`data` order.  Returns (new internal keys, notified rows). -/
def updateSelection (data : List Row) (rowKey : String) (keys : List Value) :
    List Value × List Row :=
  (keys, data.filter (fun r => keys.contains (getField r rowKey)))

/-- `toggleRow` of the source, in uncontrolled mode: a row click (or
its checkbox) toggles that row's key.  When `selectable` is false
nothing happens and nothing is notified; otherwise in `single` mode the
selection becomes empty (if the row was selected) or exactly that row's
key; in `multiple` mode the key is removed from or appended to the
current key list. -/
def toggleRow (mode : SelectMode) (selectable : Bool) (data : List Row) (rowKey : String)
    (selectedKeys : List Value) (row : Row) : List Value × List Row :=
  if selectable = false then (selectedKeys, [])
  else
    let key := getField row rowKey
    match mode with
    | SelectMode.single =>
        if selectedKeys.contains key then updateSelection data rowKey []
        else updateSelection data rowKey [key]
    | SelectMode.multiple =>
        if selectedKeys.contains key then
          updateSelection data rowKey (selectedKeys.filter (fun k => !(k == key)))
        else updateSelection data rowKey (selectedKeys ++ [key])

/-- `handleSelectAll` of the source, in uncontrolled mode: checking the
header control selects the identity key of every row of `data`;
unchecking clears the selection.  No-op when not selectable. -/
def handleSelectAll (selectable : Bool) (data : List Row) (rowKey : String)
    (selectedKeys : List Value) (checked : Bool) : List Value × List Row :=
  if selectable = false then (selectedKeys, [])
  else if checked then updateSelection data rowKey (data.map (fun r => getField r rowKey))
  else updateSelection data rowKey []

/-- `allSelected` of the source:
`data.length > 0 && selectedKeys.length === data.length` — the header
select-all checkbox's checked state. -/
def allSelected (data : List Row) (selectedKeys : List Value) : Bool :=
  decide (0 < data.length) && (selectedKeys.length == data.length)

/-- The three render modes of the DataTable. -/
inductive RenderMode where
  | loading : RenderMode
  | empty : RenderMode
  | populated : RenderMode
deriving DecidableEq, Repr

/-- The early returns of the DataTable component body: the loading
placeholder when `loading`, else the empty placeholder when `data` has
no rows, else the populated table. -/
def renderMode (loading : Bool) (data : List Row) : RenderMode :=
  if loading then RenderMode.loading
  else if data.length = 0 then RenderMode.empty
  else RenderMode.populated

/-! ## InputField -/

/-- The InputField's internal state: the `internalValue` React state. -/
structure InputFieldState where
  internalValue : String
deriving DecidableEq, Repr

/-- `isControlled = value !== undefined`: the `value` prop is modelled
as `Option String`, `none` standing for an absent (undefined) prop. -/
def isControlled (value : Option String) : Bool :=
  value.isSome

/-- The `useState` initialiser: `defaultValue ?? (value ?? '')`. -/
def initialState (value defaultValue : Option String) : InputFieldState :=
  ⟨defaultValue.getD (value.getD "")⟩

/-- The `useEffect` body: when controlled, the internal value is
overwritten with `value ?? ''` (runs at mount and whenever the `value`
prop changes). -/
def syncEffect (value : Option String) (s : InputFieldState) : InputFieldState :=
  if isControlled value then ⟨value.getD ""⟩ else s

/-- `handleChange` of the source, restricted to its effect on the
internal state: a keystroke producing text `t` updates the internal
value only in uncontrolled mode (the `onChange` notification is fired
either way and carries `t`). -/
def handleChange (value : Option String) (s : InputFieldState) (t : String) : InputFieldState :=
  if isControlled value then s else ⟨t⟩

/-- The `value={internalValue}` attribute of the rendered `<input>`. -/
def renderedValue (s : InputFieldState) : String :=
  s.internalValue

/-- JavaScript truthiness of an optional string prop: `undefined` and
the empty string are falsy. -/
def isTruthyStr (o : Option String) : Bool :=
  match o with
  | none => false
  | some s => !(s == "")

/-- The hint paragraph of the source:
`(helperText || errorMessage) && <p>{invalid ? errorMessage : helperText}</p>`.
Returns the text node placed in the paragraph, `none` when the
paragraph is not rendered at all or the chosen prop is absent (React
renders `undefined` as nothing). -/
def renderedHint (invalid : Bool) (helperText errorMessage : Option String) :
    Option String :=
  if isTruthyStr helperText || isTruthyStr errorMessage then
    (if invalid then errorMessage else helperText)
  else none

/-- A row with an integer `id` and an `age` field, for the concrete
sort examples. -/
def ageRow (i : Int) (a : Value) : Row :=
  [("id", Value.vnum i), ("age", a)]

/-- The data array of the specification's sort example: rows whose
`age` fields are `[null, 3, 1, null, 2]`, tagged with ids 1..5 so that
the relative order of the two null rows is observable. -/
def ageRows : List Row :=
  [ageRow 1 Value.vnull, ageRow 2 (Value.vnum 3), ageRow 3 (Value.vnum 1),
   ageRow 4 Value.vnull, ageRow 5 (Value.vnum 2)]

/-! ## Helper lemmas -/

/-- The source comparator and the specification comparator agree on
which pairs compare strictly below zero, which is the only thing the
stable sort inspects. -/
theorem compareVals_lt_iff (d : Direction) (a b : Value) :
    compareVals d a b < 0 ↔ specCompareVals d a b < 0 := by
  cases a <;> cases b <;> cases d <;>
    simp [compareVals, specCompareVals, localeCompare] <;>
    split_ifs <;> omega

/-- Two comparators that agree on strict negativity produce the same
insertion. -/
theorem insertR_congr {α : Type} (cmp1 cmp2 : α → α → Int)
    (h : ∀ a b, cmp1 a b < 0 ↔ cmp2 a b < 0) (x : α) (l : List α) :
    insertR cmp1 x l = insertR cmp2 x l := by
  induction l with
  | nil => rfl
  | cons y ys ih =>
      simp only [insertR]
      by_cases hxy : cmp1 x y < 0
      · rw [if_pos hxy, if_pos ((h x y).mp hxy)]
      · rw [if_neg hxy, if_neg (fun hc => hxy ((h x y).mpr hc)), ih]

/-- Two comparators that agree on strict negativity produce the same
stable sort. -/
theorem stableSort_congr {α : Type} (cmp1 cmp2 : α → α → Int)
    (h : ∀ a b, cmp1 a b < 0 ↔ cmp2 a b < 0) (l : List α) :
    stableSort cmp1 l = stableSort cmp2 l := by
  suffices haux : ∀ (l acc : List α),
      List.foldl (fun acc x => insertR cmp1 x acc) acc l
        = List.foldl (fun acc x => insertR cmp2 x acc) acc l by
    exact haux l []
  intro l
  induction l with
  | nil => intro acc; rfl
  | cons x xs ih =>
      intro acc
      simp only [List.foldl]
      rw [insertR_congr cmp1 cmp2 h x acc, ih]

/-- An element that compares below no element of `l` is inserted at
the end. -/
theorem insertR_of_not_lt {α : Type} (cmp : α → α → Int) (x : α) (l : List α)
    (h : ∀ y ∈ l, ¬ cmp x y < 0) : insertR cmp x l = l ++ [x] := by
  induction l with
  | nil => rfl
  | cons y ys ih =>
      simp only [insertR]
      rw [if_neg (h y (List.mem_cons_self y ys)),
        ih (fun z hz => h z (List.mem_cons_of_mem y hz))]
      rfl

/-- When no element of `l` compares below any element of `acc ++ l`,
the insertion fold appends `l` to `acc` unchanged. -/
theorem foldl_insertR_append {α : Type} (cmp : α → α → Int) (l : List α) :
    ∀ acc : List α, (∀ a ∈ l, ∀ b, (b ∈ acc ∨ b ∈ l) → ¬ cmp a b < 0) →
      List.foldl (fun acc x => insertR cmp x acc) acc l = acc ++ l := by
  induction l with
  | nil => intro acc _; simp
  | cons x xs ih =>
      intro acc h
      simp only [List.foldl]
      rw [insertR_of_not_lt cmp x acc
        (fun y hy => h x (List.mem_cons_self x xs) y (Or.inl hy))]
      rw [ih (acc ++ [x]) ?_]
      · simp
      · intro a ha b hb
        refine h a (List.mem_cons_of_mem x ha) b ?_
        rcases hb with hb | hb
        · rcases List.mem_append.mp hb with hb | hb
          · exact Or.inl hb
          · exact Or.inr (by simp [List.mem_singleton.mp hb])
        · exact Or.inr (List.mem_cons_of_mem x hb)

/-! ## Claim theorems -/

/-- C1: from sort state `none`, successive activations of a sortable
column's header cycle ascending, descending, none, ascending again;
activating a different sortable column while another is sorted resets
to ascending on the new column; each activation fires exactly one
sort-change notification carrying the active key and the new direction
(or none). -/
theorem toggleSort_cycle (k kp : String) (d : Direction) (hne : kp ≠ k) :
    toggleSort none k true
      = (some ⟨k, Direction.asc⟩, [⟨k, some Direction.asc⟩])
  ∧ toggleSort (some ⟨k, Direction.asc⟩) k true
      = (some ⟨k, Direction.desc⟩, [⟨k, some Direction.desc⟩])
  ∧ toggleSort (some ⟨k, Direction.desc⟩) k true
      = (none, [⟨k, none⟩])
  ∧ toggleSort (some ⟨kp, d⟩) k true
      = (some ⟨k, Direction.asc⟩, [⟨k, some Direction.asc⟩]) := by
  refine ⟨?_, ?_, ?_, ?_⟩ <;> simp [toggleSort, hne]

/-- C1 witness: the cycle at the concrete column key "a", with "b" as
the other sorted column. -/
theorem toggleSort_cycle_witness :
    toggleSort none "a" true
      = (some ⟨"a", Direction.asc⟩, [⟨"a", some Direction.asc⟩])
  ∧ toggleSort (some ⟨"a", Direction.asc⟩) "a" true
      = (some ⟨"a", Direction.desc⟩, [⟨"a", some Direction.desc⟩])
  ∧ toggleSort (some ⟨"a", Direction.desc⟩) "a" true
      = (none, [⟨"a", none⟩])
  ∧ toggleSort (some ⟨"b", Direction.desc⟩) "a" true
      = (some ⟨"a", Direction.asc⟩, [⟨"a", some Direction.asc⟩]) :=
  toggleSort_cycle "a" "b" Direction.desc (by decide)

/-- C2: with an active sort, the displayed row order is the stable
sort of the data under the specification's comparator (null/undefined
to one end, numbers numerically, everything else by string ordering);
in particular on `age` fields `[null, 3, 1, null, 2]`, ascending yields
the two null rows first in original relative order followed by 1, 2, 3,
and descending yields 3, 2, 1 followed by the null rows. -/
theorem sortedData_matches_spec_comparator :
    (∀ (data : List Row) (cfg : SortConfig),
      sortedData data (some cfg) = stableSort (specRowCompare cfg) data)
  ∧ sortedData ageRows (some ⟨"age", Direction.asc⟩)
      = [ageRow 1 Value.vnull, ageRow 4 Value.vnull, ageRow 3 (Value.vnum 1),
         ageRow 5 (Value.vnum 2), ageRow 2 (Value.vnum 3)]
  ∧ sortedData ageRows (some ⟨"age", Direction.desc⟩)
      = [ageRow 2 (Value.vnum 3), ageRow 5 (Value.vnum 2), ageRow 3 (Value.vnum 1),
         ageRow 1 Value.vnull, ageRow 4 Value.vnull] := by
  refine ⟨?_, by decide, by decide⟩
  intro data cfg
  exact stableSort_congr (rowCompare cfg) (specRowCompare cfg)
    (fun a b => compareVals_lt_iff cfg.direction (getField a cfg.key) (getField b cfg.key))
    data

/-- C3: in uncontrolled selection, for rows with distinct identity
keys: in single mode, selecting A then B leaves exactly B selected, and
selecting A twice leaves the selection empty; in multiple mode,
selecting A, B, then A again leaves exactly B selected. -/
theorem toggleRow_selection_semantics (data : List Row) (rowKey : String) (A B : Row)
    (hAB : getField A rowKey ≠ getField B rowKey) :
    (toggleRow SelectMode.single true data rowKey
        (toggleRow SelectMode.single true data rowKey [] A).1 B).1
      = [getField B rowKey]
  ∧ (toggleRow SelectMode.single true data rowKey
        (toggleRow SelectMode.single true data rowKey [] A).1 A).1
      = []
  ∧ (toggleRow SelectMode.multiple true data rowKey
        (toggleRow SelectMode.multiple true data rowKey
          (toggleRow SelectMode.multiple true data rowKey [] A).1 B).1 A).1
      = [getField B rowKey] := by
  have hBA : ¬ (getField B rowKey == getField A rowKey) = true := by
    simp [Ne.symm hAB]
  have hAB2 : ¬ (getField A rowKey == getField B rowKey) = true := by
    simp [hAB]
  refine ⟨?_, ?_, ?_⟩ <;>
    simp [toggleRow, updateSelection, List.contains, hAB, Ne.symm hAB, hBA, hAB2]

/-- C3 witness: rows with identity keys 1 and 2. -/
theorem toggleRow_selection_semantics_witness :
    (toggleRow SelectMode.single true [] "id"
        (toggleRow SelectMode.single true [] "id" [] [("id", Value.vnum 1)]).1
        [("id", Value.vnum 2)]).1
      = [getField [("id", Value.vnum 2)] "id"]
  ∧ (toggleRow SelectMode.single true [] "id"
        (toggleRow SelectMode.single true [] "id" [] [("id", Value.vnum 1)]).1
        [("id", Value.vnum 1)]).1
      = []
  ∧ (toggleRow SelectMode.multiple true [] "id"
        (toggleRow SelectMode.multiple true [] "id"
          (toggleRow SelectMode.multiple true [] "id" [] [("id", Value.vnum 1)]).1
          [("id", Value.vnum 2)]).1
        [("id", Value.vnum 1)]).1
      = [getField [("id", Value.vnum 2)] "id"] :=
  toggleRow_selection_semantics [] "id" [("id", Value.vnum 1)] [("id", Value.vnum 2)]
    (by decide)

/-- C4 counterexample: in single mode with two rows, checking the
header select-all control (which `handleSelectAll` performs identically
in every mode) yields a selection of size 2, refuting the invariant
"the selection set has size 0 or 1 after every selection operation". -/
theorem selectAll_breaks_single_invariant :
    (handleSelectAll true [[("id", Value.vnum 1)], [("id", Value.vnum 2)]] "id" [] true).1.length
      = 2
  ∧ ¬ (handleSelectAll true [[("id", Value.vnum 1)], [("id", Value.vnum 2)]] "id" [] true).1.length
      ≤ 1 := by
  decide

/-- C4 amended: in single mode with uncontrolled selection, the
size-at-most-one invariant holds initially and is preserved by row
click / row checkbox toggles and by unchecking the header select-all
control; checking select-all is excluded, since it selects every row of
the data. -/
theorem single_mode_invariant_amended (data : List Row) (rowKey : String)
    (selectedKeys : List Value) (row : Row) (selectable : Bool)
    (hlen : selectedKeys.length ≤ 1) :
    ([] : List Value).length ≤ 1
  ∧ (toggleRow SelectMode.single selectable data rowKey selectedKeys row).1.length ≤ 1
  ∧ (handleSelectAll selectable data rowKey selectedKeys false).1.length ≤ 1 := by
  refine ⟨by simp, ?_, ?_⟩
  · by_cases hsel : selectable = false
    · simpa [toggleRow, hsel] using hlen
    · simp [toggleRow, updateSelection, hsel]
      split <;> simp
  · by_cases hsel : selectable = false
    · simpa [handleSelectAll, hsel] using hlen
    · simp [handleSelectAll, updateSelection, hsel]

/-- C4 amended witness: a two-row data array with one key selected. -/
theorem single_mode_invariant_amended_witness :
    ([] : List Value).length ≤ 1
  ∧ (toggleRow SelectMode.single true [[("id", Value.vnum 1)], [("id", Value.vnum 2)]] "id"
      [Value.vnum 1] [("id", Value.vnum 2)]).1.length ≤ 1
  ∧ (handleSelectAll true [[("id", Value.vnum 1)], [("id", Value.vnum 2)]] "id"
      [Value.vnum 1] false).1.length ≤ 1 :=
  single_mode_invariant_amended [[("id", Value.vnum 1)], [("id", Value.vnum 2)]] "id"
    [Value.vnum 1] [("id", Value.vnum 2)] true (by decide)

/-- C5 counterexample: with rows whose keys are 1 and 2 and a selection
holding only the stale keys 3 and 4, the header control is rendered
checked although no row of the data has its key in the selection set,
refuting "checked only if all rows present in data are selected". -/
theorem allSelected_ignores_membership :
    allSelected [[("id", Value.vnum 1)], [("id", Value.vnum 2)]]
      [Value.vnum 3, Value.vnum 4] = true
  ∧ ([[("id", Value.vnum 1)], [("id", Value.vnum 2)]].all
      (fun r => [Value.vnum 3, Value.vnum 4].contains (getField r "id"))) = false := by
  decide

/-- C5 amended: the header select-all control is rendered checked iff
the data is non-empty and the selection set's size equals the number of
rows — a cardinality test, not a membership test, so stale keys of rows
absent from the data still count. -/
theorem allSelected_iff_length_eq (data : List Row) (selectedKeys : List Value) :
    allSelected data selectedKeys = true
      ↔ data ≠ [] ∧ selectedKeys.length = data.length := by
  simp [allSelected, List.length_pos]

/-- C6: the table renders exactly one of three mutually exclusive
modes: the loading placeholder whenever `loading` is true, the empty
placeholder whenever not loading and the data has zero rows, and the
populated table otherwise; loading takes precedence over emptiness. -/
theorem renderMode_trichotomy (loading : Bool) (data : List Row) :
    (renderMode loading data = RenderMode.loading ↔ loading = true)
  ∧ (renderMode loading data = RenderMode.empty ↔ loading = false ∧ data = [])
  ∧ (renderMode loading data = RenderMode.populated ↔ loading = false ∧ data ≠ []) := by
  cases loading <;> cases data <;> simp [renderMode]

/-- C7: in controlled mode (the `value` prop is `some x` at creation
and after every update), the rendered input value equals `x` after the
mount effect and stays `x` through every sequence of keystrokes,
whatever `defaultValue` was supplied. -/
theorem controlled_value_constant (x : String) (dv : Option String) (ts : List String) :
    renderedValue
      (ts.foldl (handleChange (some x)) (syncEffect (some x) (initialState (some x) dv)))
      = x := by
  have hstep : ∀ (s : InputFieldState) (t : String), handleChange (some x) s t = s := by
    intro s t
    simp [handleChange, isControlled]
  have hfold : ∀ (l : List String) (s : InputFieldState),
      l.foldl (handleChange (some x)) s = s := by
    intro l
    induction l with
    | nil => intro s; rfl
    | cons t l ih => intro s; simp [List.foldl, hstep, ih]
  simp [hfold, syncEffect, isControlled, initialState, renderedValue]

/-- C8 counterexample: with `invalid` true, helper text "help" and no
error message, the component renders nothing in the hint slot — the
helper text is not shown, refuting "when invalid is true but no error
message is supplied, the helper text is still shown". -/
theorem invalid_hides_helper_without_error :
    renderedHint true (some "help") none = none
  ∧ renderedHint true (some "help") none ≠ some "help" := by
  decide

/-- C8 amended: when either the helper text or the error message is a
non-empty string, the hint paragraph shows the error message when
`invalid` is true — even when the error message is absent, in which
case nothing is displayed and the helper text is suppressed — and shows
the helper text when `invalid` is false. -/
theorem renderedHint_amended (h e : Option String) :
    renderedHint true h e = (if isTruthyStr h || isTruthyStr e then e else none)
  ∧ renderedHint false h e = (if isTruthyStr h || isTruthyStr e then h else none) := by
  constructor <;> simp [renderedHint]

/-- C9: sorting on a key that is absent from (null/undefined on) every
row leaves the displayed order unchanged. -/
theorem sort_missing_key_noop (data : List Row) (cfg : SortConfig)
    (h : ∀ r ∈ data, getField r cfg.key = Value.vnull) :
    sortedData data (some cfg) = data := by
  simp only [sortedData, stableSort]
  have := foldl_insertR_append (rowCompare cfg) data []
  rw [this ?_]
  · simp
  · intro a ha b hb
    have hb2 : b ∈ data := by
      rcases hb with hb | hb
      · cases hb
      · exact hb
    simp [rowCompare, h a ha, h b hb2, compareVals]

/-- C9 witness: two rows without an `age` field, sorted on `age`. -/
theorem sort_missing_key_noop_witness :
    sortedData [[("id", Value.vnum 1)], [("id", Value.vnum 2)]]
      (some ⟨"age", Direction.asc⟩)
      = [[("id", Value.vnum 1)], [("id", Value.vnum 2)]] :=
  sort_missing_key_noop [[("id", Value.vnum 1)], [("id", Value.vnum 2)]]
    ⟨"age", Direction.asc⟩ (by decide)

/-- C10: every selection-change notification carries the rows of the
current data filtered by the selected key set: the notified rows form a
sublist of the data (hence appear in data order, independent of the
order of the key set), each notified row's key is in the key set, and
keys without a matching row contribute nothing (any key set with the
same membership yields the same rows). -/
theorem updateSelection_notifies_filtered_rows (data : List Row) (rowKey : String)
    (keys keysp : List Value) (hmem : ∀ k, keys.contains k = keysp.contains k) :
    (updateSelection data rowKey keys).2.Sublist data
  ∧ (∀ r ∈ (updateSelection data rowKey keys).2,
      keys.contains (getField r rowKey) = true)
  ∧ (updateSelection data rowKey keys).2 = (updateSelection data rowKey keysp).2 := by
  refine ⟨List.filter_sublist _, ?_, ?_⟩
  · intro r hr
    simp only [updateSelection] at hr
    have hp := List.of_mem_filter hr
    exact hp
  · simp only [updateSelection]
    exact List.filter_congr (fun x _ => hmem (getField x rowKey))

/-- C10 witness: rows with keys 1 and 2, key sets {2, 9} given in two
different orders; only the row with key 2 is notified. -/
theorem updateSelection_notifies_filtered_rows_witness :
    (updateSelection [[("id", Value.vnum 1)], [("id", Value.vnum 2)]] "id"
        [Value.vnum 2, Value.vnum 9]).2.Sublist
      [[("id", Value.vnum 1)], [("id", Value.vnum 2)]]
  ∧ (∀ r ∈ (updateSelection [[("id", Value.vnum 1)], [("id", Value.vnum 2)]] "id"
        [Value.vnum 2, Value.vnum 9]).2,
      [Value.vnum 2, Value.vnum 9].contains (getField r "id") = true)
  ∧ (updateSelection [[("id", Value.vnum 1)], [("id", Value.vnum 2)]] "id"
        [Value.vnum 2, Value.vnum 9]).2
      = (updateSelection [[("id", Value.vnum 1)], [("id", Value.vnum 2)]] "id"
          [Value.vnum 9, Value.vnum 2]).2 :=
  updateSelection_notifies_filtered_rows [[("id", Value.vnum 1)], [("id", Value.vnum 2)]]
    "id" [Value.vnum 2, Value.vnum 9] [Value.vnum 9, Value.vnum 2]
    (fun k => by simp [List.contains, Bool.or_comm])

end UzenceSpec
